import Mathlib

/-!
Verification of the OmnixStorage Python SDK (`omnix-storage-py`).

This file gives a shallow embedding of the parts of the SDK that the
specification's claims are about:

* `_signer.py` — the AWS Signature V4 signer (`sign_request`,
  `generate_presigned_url`), embedded with a real SHA-256 / HMAC-SHA256
  implementation over `Nat` bytes;
* `client.py` — expiry validation, the internal-host guardrail,
  presigned-URL generation and the JWT token cache (`_get_auth_token`);
* `_http.py` — the retrying request loop (`_request`).

Python strings are modelled as `List Char` (`PStr`); Python `dict`s as
association lists with insert-or-replace update; Python machine-free
integers as `Int`/`Nat`.  The network transport and the ambient clock are
passed in explicitly as oracles, so that stateful code becomes explicit
state passing.
-/

namespace Omnix

/-- Python strings, modelled as lists of characters. -/
abbrev PStr := List Char

/-- Coerce a Lean string literal to the `List Char` model. -/
def pstr (s : String) : PStr := s.data

/-- `str.lower()` on the ASCII range (the SDK only lowercases hostnames
and header names, which are ASCII). -/
def pyLower (s : PStr) : PStr := s.map Char.toLower

/-- Characters treated as whitespace by Python's `str.strip()` (the ASCII
subset, which is all the SDK ever strips). -/
def isPySpace (c : Char) : Bool :=
  c = ' ' || c = '\t' || c = '\n' || c = '\r' || c = '\x0b' || c = '\x0c'

/-- `str.strip()`: drop leading and trailing whitespace. -/
def pyStrip (s : PStr) : PStr :=
  ((s.dropWhile isPySpace).reverse.dropWhile isPySpace).reverse

/-- `str.rstrip(chars)` with an explicit character set. -/
def pyRStrip (s : PStr) (cs : List Char) : PStr :=
  (s.reverse.dropWhile (fun c => cs.contains c)).reverse

/-- `str.startswith(p)`. -/
def pyStartsWith (s p : PStr) : Bool := p.isPrefixOf s

/-- `str.endswith(p)`. -/
def pyEndsWith (s p : PStr) : Bool := p.isSuffixOf s

/-- `str.split(sep)` for a one-character separator, as used by
`_is_internal_host` (`normalized.split(".")`). -/
def pySplit (sep : Char) : PStr → List PStr
  | [] => [[]]
  | c :: rest =>
    let r := pySplit sep rest
    if c = sep then [] :: r
    else match r with
      | [] => [[c]]
      | p :: ps => (c :: p) :: ps

/-- `sep.join(parts)` specialised to a one-character separator's inverse:
`intercalate` over the split. -/
def pyJoin (sep : PStr) (parts : List PStr) : PStr :=
  match parts with
  | [] => []
  | p :: ps => p ++ (ps.map (fun q => sep ++ q)).flatten

/-- Value of a single decimal digit character, if it is one. -/
def digitVal? (c : Char) : Option Nat :=
  if '0' ≤ c ∧ c ≤ '9' then some (c.toNat - 48) else none

/-- One step of the decimal accumulator fold. -/
def digitStep (acc : Option Nat) (c : Char) : Option Nat :=
  match acc, digitVal? c with
  | some n, some d => some (n * 10 + d)
  | _, _ => none

/-- Fold a list of decimal digit characters into a `Nat`; `none` if the
list is empty or contains a non-digit. -/
def digitsToNat? (s : PStr) : Option Nat :=
  match s with
  | [] => none
  | _ => s.foldl digitStep (some 0)

/-- Python `int(s)`: strips surrounding whitespace, accepts an optional
sign, then decimal digits (leading zeros allowed).  Underscore digit
separators, accepted by CPython, are not modelled — no claim feeds the
parser a string containing one. -/
def pyInt? (s : PStr) : Option Int :=
  match pyStrip s with
  | [] => none
  | c :: rest =>
    if c = '+' then (digitsToNat? rest).map Int.ofNat
    else if c = '-' then (digitsToNat? rest).map (fun n => -(Int.ofNat n))
    else (digitsToNat? (c :: rest)).map Int.ofNat

/-- ASCII character of a decimal digit. -/
def digitChar (d : Nat) : Char := Char.ofNat (48 + d)

/-- Fuel-driven digit expansion; `fuel` strictly exceeds the digit count
at every call from `natToChars`, so the `0` case is never reached. -/
def natToCharsAux (fuel n : Nat) : PStr :=
  match fuel with
  | 0 => []
  | fuel + 1 =>
    if n < 10 then [digitChar n]
    else natToCharsAux fuel (n / 10) ++ [digitChar (n % 10)]

/-- Decimal digit string of a `Nat`, most significant digit first
(Python `str(n)` for `n ≥ 0`). -/
def natToChars (n : Nat) : PStr := natToCharsAux (n + 1) n

/-- Python `str(i)` for an `int`. -/
def intToChars (i : Int) : PStr :=
  if i < 0 then '-' :: natToChars i.natAbs else natToChars i.natAbs

/-- Zero-padded two-digit field of `strftime`. -/
def pad2 (n : Nat) : PStr :=
  if n < 10 then '0' :: natToChars n else natToChars n

/-- Zero-padded four-digit field of `strftime`. -/
def pad4 (n : Nat) : PStr :=
  if n < 10 then '0' :: '0' :: '0' :: natToChars n
  else if n < 100 then '0' :: '0' :: natToChars n
  else if n < 1000 then '0' :: natToChars n
  else natToChars n

/-! ### Bytes, UTF-8, SHA-256 and HMAC-SHA256

`str.encode()` in the source is UTF-8; `hashlib.sha256` and `hmac.new`
are embedded below as pure functions on byte lists (`List Nat`, each
element `< 256`), with 32-bit words as `Nat` reduced mod `2^32`. -/

/-- Byte strings. -/
abbrev Bytes := List Nat

/-- UTF-8 encoding of one code point. -/
def utf8Char (c : Char) : Bytes :=
  if c.toNat < 0x80 then [c.toNat]
  else if c.toNat < 0x800 then
    [0xC0 ||| (c.toNat >>> 6), 0x80 ||| (c.toNat &&& 0x3F)]
  else if c.toNat < 0x10000 then
    [0xE0 ||| (c.toNat >>> 12), 0x80 ||| ((c.toNat >>> 6) &&& 0x3F),
     0x80 ||| (c.toNat &&& 0x3F)]
  else
    [0xF0 ||| (c.toNat >>> 18), 0x80 ||| ((c.toNat >>> 12) &&& 0x3F),
     0x80 ||| ((c.toNat >>> 6) &&& 0x3F), 0x80 ||| (c.toNat &&& 0x3F)]

/-- `str.encode()`: UTF-8 bytes of a string. -/
def strBytes (s : PStr) : Bytes := (s.map utf8Char).flatten

/-- Reduce to a 32-bit word. -/
def w32 (n : Nat) : Nat := n % 4294967296

/-- 32-bit right rotation. -/
def rotr (n x : Nat) : Nat := w32 ((x >>> n) ||| (x <<< (32 - n)))

/-- 32-bit right shift (already within range for `x < 2^32`). -/
def shr (n x : Nat) : Nat := x >>> n

/-- Bitwise complement within 32 bits. -/
def not32 (x : Nat) : Nat := 4294967295 - (x % 4294967296)

/-- SHA-256 round constants (FIPS 180-4, written in decimal). -/
def shaK : List Nat :=
  [1116352408, 1899447441, 3049323471, 3921009573, 961987163,
   1508970993, 2453635748, 2870763221, 3624381080, 310598401,
   607225278, 1426881987, 1925078388, 2162078206, 2614888103,
   3248222580, 3835390401, 4022224774, 264347078, 604807628,
   770255983, 1249150122, 1555081692, 1996064986, 2554220882,
   2821834349, 2952996808, 3210313671, 3336571891, 3584528711,
   113926993, 338241895, 666307205, 773529912, 1294757372,
   1396182291, 1695183700, 1986661051, 2177026350, 2456956037,
   2730485921, 2820302411, 3259730800, 3345764771, 3516065817,
   3600352804, 4094571909, 275423344, 430227734, 506948616,
   659060556, 883997877, 958139571, 1322822218, 1537002063,
   1747873779, 1955562222, 2024104815, 2227730452, 2361852424,
   2428436474, 2756734187, 3204031479, 3329325298]

/-- SHA-256 initial hash state (FIPS 180-4, written in decimal). -/
def shaH0 : List Nat :=
  [1779033703, 3144134277, 1013904242, 2773480762,
   1359893119, 2600822924, 528734635, 1541459225]

/-- Split a byte list into chunks of `n` bytes (`n > 0` at every use). -/
def chunks (n : Nat) (l : List α) : List (List α) :=
  if l.isEmpty ∨ n = 0 then []
  else l.take n :: chunks n (l.drop n)
  termination_by l.length
  decreasing_by
    rename_i h
    simp only [List.isEmpty_iff, not_or] at h
    have : l ≠ [] := h.1
    have : 0 < l.length := List.length_pos.mpr this
    simp [List.length_drop]
    omega

/-- Big-endian 32-bit word from four bytes. -/
def wordOfBytes (b : List Nat) : Nat :=
  b.foldl (fun acc x => acc * 256 + x) 0

/-- Big-endian byte expansion of a 32-bit word. -/
def bytesOfWord (x : Nat) : Bytes :=
  [(x >>> 24) % 256, (x >>> 16) % 256, (x >>> 8) % 256, x % 256]

/-- SHA-256 padding: append `0x80`, zeros, and the 64-bit big-endian bit
length, to a multiple of 64 bytes. -/
def shaPad (msg : Bytes) : Bytes :=
  let len := msg.length
  let zeros := (64 - ((len + 9) % 64)) % 64
  let bitLen := len * 8
  msg ++ [0x80] ++ List.replicate zeros 0 ++
    [(bitLen >>> 56) % 256, (bitLen >>> 48) % 256, (bitLen >>> 40) % 256,
     (bitLen >>> 32) % 256, (bitLen >>> 24) % 256, (bitLen >>> 16) % 256,
     (bitLen >>> 8) % 256, bitLen % 256]

/-- SHA-256 message schedule over one 16-word block. -/
def shaW (w16 : List Nat) : Nat → Nat
  | i =>
    if _h : i < 16 then w16.getD i 0
    else
      let s0 := fun x => (rotr 7 x) ^^^ (rotr 18 x) ^^^ (shr 3 x)
      let s1 := fun x => (rotr 17 x) ^^^ (rotr 19 x) ^^^ (shr 10 x)
      w32 (shaW w16 (i - 16) + s0 (shaW w16 (i - 15)) +
           shaW w16 (i - 7) + s1 (shaW w16 (i - 2)))
  termination_by i => i
  decreasing_by all_goals omega

/-- One SHA-256 compression round. -/
def shaRound (w : Nat → Nat) (s : List Nat) (t : Nat) : List Nat :=
  match s with
  | [a, b, c, d, e, f, g, h] =>
    let S1 := (rotr 6 e) ^^^ (rotr 11 e) ^^^ (rotr 25 e)
    let ch := (e &&& f) ^^^ ((not32 e) &&& g)
    let temp1 := w32 (h + S1 + ch + shaK.getD t 0 + w t)
    let S0 := (rotr 2 a) ^^^ (rotr 13 a) ^^^ (rotr 22 a)
    let maj := (a &&& b) ^^^ (a &&& c) ^^^ (b &&& c)
    let temp2 := w32 (S0 + maj)
    [w32 (temp1 + temp2), a, b, c, w32 (d + temp1), e, f, g]
  | _ => s

/-- SHA-256 compression of one 64-byte block into the running state. -/
def shaBlock (hState : List Nat) (block : Bytes) : List Nat :=
  let w16 := (chunks 4 block).map wordOfBytes
  let w := shaW w16
  let s := (List.range 64).foldl (shaRound w) hState
  (hState.zip s).map (fun p => w32 (p.1 + p.2))

/-- `hashlib.sha256(msg).digest()`: the 32-byte SHA-256 digest. -/
def sha256 (msg : Bytes) : Bytes :=
  ((chunks 64 (shaPad msg)).foldl shaBlock shaH0).map bytesOfWord |>.flatten

/-- Lowercase hex character of a value `< 16`. -/
def hexChar (d : Nat) : Char :=
  if d < 10 then digitChar d else Char.ofNat (87 + d)

/-- `.hexdigest()`: lowercase hex string of a byte list. -/
def hexOfBytes (b : Bytes) : PStr :=
  (b.map (fun x => [hexChar (x / 16), hexChar (x % 16)])).flatten

/-- `hmac.new(key, msg, hashlib.sha256).digest()`. -/
def hmacSha256 (key msg : Bytes) : Bytes :=
  let k0 := if key.length > 64 then sha256 key else key
  let k := k0 ++ List.replicate (64 - k0.length) 0
  let ipad := k.map (fun x => x ^^^ 0x36)
  let opad := k.map (fun x => x ^^^ 0x5c)
  sha256 (opad ++ sha256 (ipad ++ msg))

/-! ### Python dicts, `urllib.parse.quote`, sorting, datetimes -/

/-- Python `dict[str, str]`: an insertion-ordered association list with
unique keys. -/
abbrev Dict := List (PStr × PStr)

/-- `d[k] = v`: replace the value in place when the key exists, else
append the new pair (Python dict semantics). -/
def dictSet (d : Dict) (k v : PStr) : Dict :=
  if d.any (fun kv => kv.1 = k) then
    d.map (fun kv => if kv.1 = k then (k, v) else kv)
  else d ++ [(k, v)]

/-- `d.update(e)`: fold `dictSet` over the items of `e`. -/
def dictUpdate (d e : Dict) : Dict :=
  e.foldl (fun acc kv => dictSet acc kv.1 kv.2) d

/-- `d.get(k)`. -/
def dictGet? (d : Dict) (k : PStr) : Option PStr :=
  (d.find? (fun kv => kv.1 = k)).map Prod.snd

/-- Characters `urllib.parse.quote` never encodes
(ASCII letters, digits, `_`, `.`, `-`, `~`); the SDK always calls
`quote(..., safe='')`, so nothing else is exempt. -/
def isAlwaysSafe (c : Char) : Bool :=
  ('A' ≤ c && c ≤ 'Z') || ('a' ≤ c && c ≤ 'z') || ('0' ≤ c && c ≤ '9') ||
  c = '_' || c = '.' || c = '-' || c = '~'

/-- Uppercase hex character of a value `< 16` (as used by `quote`). -/
def hexCharUpper (d : Nat) : Char :=
  if d < 10 then digitChar d else Char.ofNat (55 + d)

/-- One character under `quote(s, safe='')`: itself when always-safe,
else each UTF-8 byte as `%XX`. -/
def quoteChar (c : Char) : PStr :=
  if isAlwaysSafe c then [c]
  else ((utf8Char c).map (fun b => ['%', hexCharUpper (b / 16), hexCharUpper (b % 16)])).flatten

/-- `urllib.parse.quote(s, safe='')`. -/
def pyQuote (s : PStr) : PStr := (s.map quoteChar).flatten

/-- Python string `<`: lexicographic comparison by code point. -/
def pstrLt : PStr → PStr → Bool
  | [], [] => false
  | [], _ :: _ => true
  | _ :: _, [] => false
  | a :: as_, b :: bs =>
    if a.toNat < b.toNat then true
    else if b.toNat < a.toNat then false
    else pstrLt as_ bs

/-- Python tuple `<` on `(key, value)` pairs: compare keys, then values. -/
def pairLt (x y : PStr × PStr) : Bool :=
  pstrLt x.1 y.1 || (x.1 = y.1 && pstrLt x.2 y.2)

/-- Stable insertion of `x` after every element `≤` it. -/
def insLe (lt : α → α → Bool) (x : α) : List α → List α
  | [] => [x]
  | y :: ys => if lt x y then x :: y :: ys else y :: insLe lt x ys

/-- Python `sorted(l)`: a stable ascending sort (insertion sort gives the
same list as CPython's stable mergesort for any total comparator). -/
def pySorted (lt : α → α → Bool) (l : List α) : List α :=
  l.foldl (fun acc x => insLe lt x acc) []

/-- A UTC wall-clock instant as produced by `datetime.now(UTC)` and
consumed by `strftime` (sub-second fields are never formatted). -/
structure PyDateTime where
  year : Nat
  month : Nat
  day : Nat
  hour : Nat
  minute : Nat
  second : Nat
deriving DecidableEq, Repr

/-- `timestamp.strftime("%Y%m%dT%H%M%SZ")`. -/
def amzDateOf (t : PyDateTime) : PStr :=
  pad4 t.year ++ pad2 t.month ++ pad2 t.day ++ ['T'] ++
  pad2 t.hour ++ pad2 t.minute ++ pad2 t.second ++ ['Z']

/-- `timestamp.strftime("%Y%m%d")`. -/
def dateStampOf (t : PyDateTime) : PStr :=
  pad4 t.year ++ pad2 t.month ++ pad2 t.day

/-- Error outcomes of the embedded SDK functions, one constructor per
`raise` site the claims mention.  The spec's names: `InvalidExpiry` is
the `ValueError` citing 604800; `InvalidUrl` the "not a valid absolute
URL" `ValueError`; `RejectedInternalHost` / `RejectedHostMismatch` the
two guardrail `ValueError`s; `AuthenticationFailed` the
`AuthenticationException`. -/
inductive SdkError
  | invalidExpiry
  | invalidUrl
  | rejectedInternalHost
  | rejectedHostMismatch
  | invalidEndpoint
  | authenticationFailed
deriving DecidableEq, Repr

/-! ### `_signer.py` — `AwsSignatureV4Signer` -/

/-- The signer's construction-time credential pair. -/
structure Signer where
  access_key : PStr
  secret_key : PStr
deriving DecidableEq, Repr

/-- `_build_canonical_headers`: lower-case keys, strip values, collected
into a fresh dict (later duplicates overwrite, as in Python). -/
def build_canonical_headers (headers : Dict) : Dict :=
  headers.foldl (fun acc kv => dictSet acc (pyLower kv.1) (pyStrip kv.2)) []

/-- `_build_canonical_querystring`: percent-encode keys and values with
an empty safe set, sort by `(key, value)`, join with `&`;
empty dict gives the empty string. -/
def build_canonical_querystring (params : Dict) : PStr :=
  match params with
  | [] => []
  | _ =>
    pyJoin (pstr "&")
      ((pySorted pairLt params).map (fun kv => pyQuote kv.1 ++ ['='] ++ pyQuote kv.2))

/-- `_hash_payload`: hex SHA-256 of the body, or of the empty byte string
when absent. -/
def hash_payload (body : Option Bytes) : PStr :=
  hexOfBytes (sha256 (body.getD []))

/-- `_derive_signing_key`: the chained HMAC-SHA256 key derivation over
`"AWS4" + secret`, date, region `us-east-1`, service `s3`,
`aws4_request`. -/
def derive_signing_key (secret_key datestamp : PStr) : Bytes :=
  let k_date := hmacSha256 (strBytes (pstr "AWS4" ++ secret_key)) (strBytes datestamp)
  let k_region := hmacSha256 k_date (strBytes (pstr "us-east-1"))
  let k_service := hmacSha256 k_region (strBytes (pstr "s3"))
  hmacSha256 k_service (strBytes (pstr "aws4_request"))

/-- `str.rstrip()` with no argument: strip trailing whitespace. -/
def pyRStripWs (s : PStr) : PStr :=
  (s.reverse.dropWhile isPySpace).reverse

/-- `AwsSignatureV4Signer.sign_request`: produce the
`{Authorization, X-Amz-Date}` header dict.  `now` models
`datetime.now(UTC)`, consulted only when `timestamp` is `None`;
`host` is accepted but (as in the source) unused. -/
def sign_request (sg : Signer) (method host path : PStr)
    (query_params : Option Dict) (headers : Option Dict)
    (body : Option Bytes) (timestamp : Option PyDateTime)
    (now : PyDateTime) : Dict :=
  let _ := host
  let ts := timestamp.getD now
  let amz_date := amzDateOf ts
  let datestamp := dateStampOf ts
  let canonical_headers_dict := build_canonical_headers (headers.getD [])
  let canonical_headers_str :=
    pyJoin (pstr "\n")
      ((pySorted pairLt canonical_headers_dict).map (fun kv => kv.1 ++ [':'] ++ kv.2))
    ++ pstr "\n"
  let signed_headers :=
    pyJoin (pstr ";") (pySorted pstrLt (canonical_headers_dict.map Prod.fst))
  let canonical_querystring := build_canonical_querystring (query_params.getD [])
  let payload_hash := hash_payload body
  let canonical_request :=
    pyJoin (pstr "\n")
      [method, path, canonical_querystring, pyRStripWs canonical_headers_str,
       [], signed_headers, payload_hash]
  let credential_scope := datestamp ++ pstr "/us-east-1/s3/aws4_request"
  let canonical_request_hash := hexOfBytes (sha256 (strBytes canonical_request))
  let string_to_sign :=
    pyJoin (pstr "\n")
      [pstr "AWS4-HMAC-SHA256", amz_date, credential_scope, canonical_request_hash]
  let signing_key := derive_signing_key sg.secret_key datestamp
  let signature := hexOfBytes (hmacSha256 signing_key (strBytes string_to_sign))
  let auth_header :=
    pstr "AWS4-HMAC-SHA256 Credential=" ++ sg.access_key ++ ['/'] ++ credential_scope ++
    pstr ", SignedHeaders=" ++ signed_headers ++ pstr ", Signature=" ++ signature
  [(pstr "Authorization", auth_header), (pstr "X-Amz-Date", amz_date)]

/-- The five `X-Amz-*` parameters `generate_presigned_url` seeds its
query dict with, in source order. -/
def presignedBaseParams (sg : Signer) (expiry : Int) (ts : PyDateTime) : Dict :=
  [(pstr "X-Amz-Algorithm", pstr "AWS4-HMAC-SHA256"),
   (pstr "X-Amz-Credential",
    sg.access_key ++ ['/'] ++ (dateStampOf ts ++ pstr "/us-east-1/s3/aws4_request")),
   (pstr "X-Amz-Date", amzDateOf ts),
   (pstr "X-Amz-Expires", intToChars expiry),
   (pstr "X-Amz-SignedHeaders", pstr "host")]

/-- The final query-parameter dict of `generate_presigned_url`: the five
`X-Amz-*` parameters, caller parameters merged by `dict.update`, and
`X-Amz-Signature` set after signing.  Factored out of
`generate_presigned_url` so theorems can speak about the parameter list
the query string is joined from. -/
def presignedParamsWithSig (sg : Signer) (method host path : PStr)
    (query_params : Option Dict) (expiry : Int) (ts : PyDateTime) : Dict :=
  let amz_date := amzDateOf ts
  let datestamp := dateStampOf ts
  let credential_scope := datestamp ++ pstr "/us-east-1/s3/aws4_request"
  let presigned_params := dictUpdate (presignedBaseParams sg expiry ts) (query_params.getD [])
  let canonical_querystring := build_canonical_querystring presigned_params
  let payload_hash := hash_payload none
  let canonical_request :=
    pyJoin (pstr "\n")
      [method, path, canonical_querystring, pstr "host:" ++ host, [],
       pstr "host", payload_hash]
  let canonical_request_hash := hexOfBytes (sha256 (strBytes canonical_request))
  let string_to_sign :=
    pyJoin (pstr "\n")
      [pstr "AWS4-HMAC-SHA256", amz_date, credential_scope, canonical_request_hash]
  let signing_key := derive_signing_key sg.secret_key datestamp
  let signature := hexOfBytes (hmacSha256 signing_key (strBytes string_to_sign))
  dictSet presigned_params (pstr "X-Amz-Signature") signature

/-- `AwsSignatureV4Signer.generate_presigned_url`.  The expiry is taken
from `expires_in_seconds` when given, else `expires_in` (the source's
backward-compatibility shim), and is range-checked before anything else;
`now` models `datetime.now(UTC)`, consulted only when `timestamp` is
`None`. -/
def generate_presigned_url (sg : Signer) (method host path : PStr)
    (query_params : Option Dict) (expires_in : Int)
    (expires_in_seconds : Option Int) (use_https : Bool)
    (timestamp : Option PyDateTime) (now : PyDateTime) :
    Except SdkError PStr :=
  let expiry := expires_in_seconds.getD expires_in
  if expiry < 1 ∨ expiry > 604800 then .error .invalidExpiry
  else
    let ts := timestamp.getD now
    let final_params := presignedParamsWithSig sg method host path query_params expiry ts
    let scheme := if use_https then pstr "https" else pstr "http"
    .ok (scheme ++ pstr "://" ++ host ++ path ++ ['?'] ++
         build_canonical_querystring final_params)

/-! ### `urllib.parse.urlparse`, modelled for absolute `scheme://…` URLs

The SDK parses only URLs it has itself assembled as
`scheme://netloc/path?query` plus whatever a theorem feeds
`_validate_and_log_presigned_url`; the model covers exactly the
`urlparse` behaviour on such strings: a valid scheme before `://` is
lowercased, the netloc runs to the first `/`, `?` or `#`, `hostname`
drops userinfo (after the last `@`) and the port and lowercases, and a
string with no valid `scheme://` yields empty scheme and netloc. -/

/-- The `urlparse` fields the SDK reads. -/
structure UrlParts where
  scheme : PStr
  netloc : PStr
  path : PStr
  query : PStr
deriving DecidableEq, Repr

/-- Split a string around the first occurrence of `"://"`. -/
def splitSchemeMarker : PStr → Option (PStr × PStr)
  | [] => none
  | c :: rest =>
    if pyStartsWith (c :: rest) (pstr "://") then some ([], rest.drop 2)
    else (splitSchemeMarker rest).map (fun p => (c :: p.1, p.2))

/-- RFC 3986 scheme syntax, as `urlparse` checks it. -/
def isSchemeChars (s : PStr) : Bool :=
  match s with
  | [] => false
  | c :: rest =>
    c.isAlpha && rest.all (fun d => d.isAlphanum || d = '+' || d = '-' || d = '.')

/-- `urllib.parse.urlparse` on the modelled subset. -/
def urlparse (url : PStr) : UrlParts :=
  match splitSchemeMarker url with
  | some (sch, rest) =>
    if isSchemeChars sch then
      let netloc := rest.takeWhile (fun c => c ≠ '/' && c ≠ '?' && c ≠ '#')
      let rest2 := rest.drop netloc.length
      let path := rest2.takeWhile (fun c => c ≠ '?' && c ≠ '#')
      let rest3 := rest2.drop path.length
      let query :=
        match rest3 with
        | '?' :: q => q.takeWhile (fun c => c ≠ '#')
        | _ => []
      ⟨pyLower sch, netloc, path, query⟩
    else ⟨[], [], url.takeWhile (fun c => c ≠ '?' && c ≠ '#'), []⟩
  | none => ⟨[], [], url.takeWhile (fun c => c ≠ '?' && c ≠ '#'), []⟩

/-- `ParseResult.hostname` (with `or ""`): userinfo before the last `@`
dropped, bracketed IPv6 literals unbracketed, the port dropped, and the
result lowercased. -/
def hostnameOf (netloc : PStr) : PStr :=
  let hostinfo := (netloc.reverse.takeWhile (fun c => c ≠ '@')).reverse
  let host :=
    if hostinfo.contains '[' then
      ((hostinfo.dropWhile (fun c => c ≠ '[')).drop 1).takeWhile (fun c => c ≠ ']')
    else hostinfo.takeWhile (fun c => c ≠ ':')
  pyLower host

/-! ### `client.py` — `OmnixClient` presigned-URL surface -/

/-- The construction-time configuration of `OmnixClient` that the
presigned-URL path reads. -/
structure ClientCfg where
  endpoint : PStr
  public_endpoint : Option PStr
  access_key : PStr
  secret_key : PStr
  use_ssl : Bool
deriving DecidableEq, Repr

/-- `self.base_url`. -/
def base_url (c : ClientCfg) : PStr :=
  (if c.use_ssl then pstr "https" else pstr "http") ++ pstr "://" ++ c.endpoint

/-- `OmnixClient._to_base_url`. -/
def to_base_url (c : ClientCfg) (endpoint : PStr) : PStr :=
  if pyStartsWith endpoint (pstr "http://") || pyStartsWith endpoint (pstr "https://") then
    pyRStrip endpoint ['/']
  else
    pyRStrip ((if c.use_ssl then pstr "https" else pstr "http") ++ pstr "://" ++ endpoint) ['/']

/-- `self.public_base_url` (`None` when `public_endpoint` is absent or
falsy, i.e. the empty string). -/
def public_base_url (c : ClientCfg) : Option PStr :=
  match c.public_endpoint with
  | some e => if e = [] then none else some (to_base_url c e)
  | none => none

/-- The clause chain of `_is_internal_host` after the
`host.strip().lower()` normalisation. -/
def internal_host_core (normalized : PStr) : Bool :=
  if normalized = pstr "localhost" || normalized = pstr "127.0.0.1" ||
     normalized = pstr "::1" then true
  else if pyEndsWith normalized (pstr ".local") ||
          pyEndsWith normalized (pstr ".internal") then true
  else if pyStartsWith normalized (pstr "10.") ||
          pyStartsWith normalized (pstr "192.168.") then true
  else if pyStartsWith normalized (pstr "172.") then
    let parts := pySplit '.' normalized
    if parts.length > 1 then
      match pyInt? (parts.getD 1 []) with
      | some second => decide (16 ≤ second ∧ second ≤ 31)
      | none => false
    else false
  else false

/-- `OmnixClient._is_internal_host`, translated clause by clause. -/
def is_internal_host (host : PStr) : Bool :=
  internal_host_core (pyLower (pyStrip host))

/-- `OmnixClient._validate_expiry`. -/
def validate_expiry (expires_in_seconds : Int) : Except SdkError Unit :=
  if expires_in_seconds < 1 ∨ expires_in_seconds > 604800 then .error .invalidExpiry
  else .ok ()

/-- `OmnixClient._effective_presigned_base_url`.  The non-fatal warning
emitted when `browser_accessible` is set without a public endpoint does
not affect the returned value and is not modelled. -/
def effective_presigned_base_url (c : ClientCfg) (browser_accessible : Bool) : PStr :=
  match public_base_url c with
  | some pub => if browser_accessible then pub else base_url c
  | none => base_url c

/-- `OmnixClient._validate_and_log_presigned_url`.  The audit log line is
a side effect on success only and is not modelled; `expires_in_seconds`,
`bucket_name` and `object_name` feed only that log line. -/
def validate_and_log_presigned_url (c : ClientCfg) (url : PStr)
    (expires_in_seconds : Int) (bucket_name object_name : PStr) :
    Except SdkError PStr :=
  let _ := (expires_in_seconds, bucket_name, object_name)
  let parsed := urlparse url
  if parsed.scheme = [] ∨ parsed.netloc = [] then .error .invalidUrl
  else
    let host := hostnameOf parsed.netloc
    if is_internal_host host then .error .rejectedInternalHost
    else
      match public_base_url c with
      | some pub =>
        let public_host := hostnameOf (urlparse pub).netloc
        if public_host ≠ [] ∧ pyLower host ≠ pyLower public_host then
          .error .rejectedHostMismatch
        else .ok url
      | none => .ok url

/-- `OmnixClient.presigned_get_object` (the URL of the returned
`PresignedUrlResult`; its `expires_at` convenience field is untouched by
any claim). -/
def presigned_get_object (c : ClientCfg) (bucket_name object_name : PStr)
    (expires_in_seconds : Int) (browser_accessible : Bool)
    (now : PyDateTime) : Except SdkError PStr := do
  let () ← validate_expiry expires_in_seconds
  let base := effective_presigned_base_url c browser_accessible
  let parsed_base := urlparse base
  let host := parsed_base.netloc
  if host = [] then throw .invalidEndpoint
  let encoded_object := pyQuote object_name
  let path := '/' :: bucket_name ++ '/' :: encoded_object
  let url ← generate_presigned_url ⟨c.access_key, c.secret_key⟩ (pstr "GET") host path
    none 3600 (some expires_in_seconds) (parsed_base.scheme = pstr "https") none now
  if browser_accessible then
    validate_and_log_presigned_url c url expires_in_seconds bucket_name object_name
  else
    pure url

/-- `OmnixClient.presigned_put_object`. -/
def presigned_put_object (c : ClientCfg) (bucket_name object_name : PStr)
    (expires_in_seconds : Int) (content_type : Option PStr)
    (browser_accessible : Bool) (now : PyDateTime) : Except SdkError PStr := do
  let () ← validate_expiry expires_in_seconds
  let base := effective_presigned_base_url c browser_accessible
  let parsed_base := urlparse base
  let host := parsed_base.netloc
  if host = [] then throw .invalidEndpoint
  let encoded_object := pyQuote object_name
  let path := '/' :: bucket_name ++ '/' :: encoded_object
  let query_params : Dict :=
    match content_type with
    | some t => if t = [] then [] else [(pstr "content-type", t)]
    | none => []
  let url ← generate_presigned_url ⟨c.access_key, c.secret_key⟩ (pstr "PUT") host path
    (some query_params) 3600 (some expires_in_seconds)
    (parsed_base.scheme = pstr "https") none now
  if browser_accessible then
    validate_and_log_presigned_url c url expires_in_seconds bucket_name object_name
  else
    pure url

/-! ### `_http.py` — `HttpClient._request`

The transport (`httpx.AsyncClient.request`) is an oracle mapping the
attempt index (and the method/URL it is called with) to either a
response or a transport-level error (`httpx.RequestError`).  HTTP
responses carry their status; the loop never looks at it.  The trace
records the result (`ok none` models the `None` that falls out when the
`for` loop body never runs), the number of transport attempts, and the
backoff sleeps in milliseconds (the source divides by 1000 into
seconds when calling `asyncio.sleep`). -/

/-- An `httpx.Response`: the loop forwards it untouched, so only the
status is modelled (it is what a claim could inspect). -/
structure HttpResponse where
  status_code : Nat
deriving DecidableEq, Repr

/-- `httpx.RequestError`, tagged so distinct failures are told apart. -/
structure TransportError where
  tag : Nat
deriving DecidableEq, Repr

/-- The observable trace of one `_request` call. -/
structure HttpTrace where
  result : Except TransportError (Option HttpResponse)
  attempts : Nat
  sleepsMs : List Nat
deriving Repr

/-- The backoff before the next attempt, in milliseconds:
`min(1000 * (2 ** attempt), 10000)` (the source then divides by 1000 for
`asyncio.sleep`). -/
def backoffMs (attempt : Nat) : Nat := min (1000 * 2 ^ attempt) 10000

/-- The body of `_request`'s `for attempt in range(self.max_retries)`
loop, from attempt index `attempt` with `remaining =
max_retries - attempt` iterations left.  A success returns immediately;
a failure sleeps `min(1000 * 2**attempt, 10000)` ms and continues unless
this was the last attempt, in which case it re-raises. -/
def requestLoop (transport : PStr → PStr → Nat → Except TransportError HttpResponse)
    (method url : PStr) (attempt : Nat) : (remaining : Nat) → HttpTrace
  | 0 => ⟨.ok none, 0, []⟩
  | r + 1 =>
    match transport method url attempt with
    | .ok resp => ⟨.ok (some resp), 1, []⟩
    | .error e =>
      if r = 0 then ⟨.error e, 1, []⟩
      else
        let t := requestLoop transport method url (attempt + 1) r
        ⟨t.result, t.attempts + 1, backoffMs attempt :: t.sleepsMs⟩

/-- `HttpClient._request` for a client built with `max_retries`; entered
by every public verb (`get`, `put`, `post`, `delete`, `head`). -/
def http_request (max_retries : Nat)
    (transport : PStr → PStr → Nat → Except TransportError HttpResponse)
    (method url : PStr) : HttpTrace :=
  requestLoop transport method url 0 max_retries

/-! ### `client.py` — `OmnixClient._get_auth_token`

The login `POST` is an oracle: either a transport-level exception or a
response with a status and an optional `token` field
(`data.get("token")`, where an absent key gives `None` and an empty
string is falsy like `None`).  Time is a `Nat` count of seconds; the
cache is threaded explicitly. -/

/-- The parsed login response: `response.status_code` and
`response.json().get("token")`. -/
structure LoginResponse where
  status_code : Nat
  token : Option PStr
deriving DecidableEq, Repr

/-- What `self._http.post(login_url, json=payload)` produces. -/
inductive LoginOutcome
  | transportFailure
  | response (r : LoginResponse)
deriving DecidableEq, Repr

/-- The client's mutable token cache: `self._jwt_token` and
`self._token_expires_at` (seconds since epoch). -/
structure TokenCache where
  jwt_token : Option PStr
  token_expires_at : Option Nat
deriving DecidableEq, Repr

/-- The fixed refresh margin: `timedelta(hours=7)` in seconds. -/
def tokenMargin : Nat := 7 * 3600

/-- Result of one `_get_auth_token` call: the returned token or the
raised error, the cache afterwards, and how many login requests were
issued (0 or 1). -/
structure AuthTrace where
  result : Except SdkError PStr
  cache : TokenCache
  logins : Nat
deriving Repr

/-- Whether the cached-token fast path is taken: `self._jwt_token` and
`self._token_expires_at` are truthy (a token is a nonempty string) and
`datetime.now(UTC) < self._token_expires_at`. -/
def cacheHit (cache : TokenCache) (now : Nat) : Bool :=
  match cache.jwt_token, cache.token_expires_at with
  | some t, some e => t ≠ [] && now < e
  | _, _ => false

/-- `OmnixClient._get_auth_token`.  On the refresh path, any transport
exception is wrapped into `AuthenticationException` by the surrounding
`except` clause; a status `≥ 400` or a falsy `token` field raises before
the cache is written; on success the cache is overwritten with the new
token and `now + 7 hours`. -/
def get_auth_token (cache : TokenCache) (now : Nat) (login : LoginOutcome) : AuthTrace :=
  if cacheHit cache now then
    ⟨.ok ((cache.jwt_token).getD []), cache, 0⟩
  else
    match login with
    | .transportFailure => ⟨.error .authenticationFailed, cache, 1⟩
    | .response r =>
      if r.status_code ≥ 400 then ⟨.error .authenticationFailed, cache, 1⟩
      else
        match r.token with
        | none => ⟨.error .authenticationFailed, cache, 1⟩
        | some t =>
          if t = [] then ⟨.error .authenticationFailed, cache, 1⟩
          else ⟨.ok t, ⟨some t, some (now + tokenMargin)⟩, 1⟩

/-! ### Spec-side definitions for the internal-host refinement (C2) -/

/-- Inverse of `pySplit`: interleave a one-character separator. -/
def joinChar (sep : Char) : List PStr → PStr
  | [] => []
  | [p] => p
  | p :: q :: ps => p ++ sep :: joinChar sep (q :: ps)

/-- Canonical decimal parse of one IPv4 octet: all digits, no redundant
leading zero (enforced by the `natToChars` round-trip), value `≤ 255`. -/
def parseOctet? (s : PStr) : Option Nat :=
  match digitsToNat? s with
  | some v => if v ≤ 255 ∧ s = natToChars v then some v else none
  | none => none

/-- Parse a dotted-quad IPv4 literal. -/
def ipv4? (s : PStr) : Option (Nat × Nat × Nat × Nat) :=
  match pySplit '.' s with
  | [a, b, c, d] => do
    let va ← parseOctet? a
    let vb ← parseOctet? b
    let vc ← parseOctet? c
    let vd ← parseOctet? d
    pure (va, vb, vc, vd)
  | _ => none

/-- Membership of a dotted-quad literal in the three RFC1918 ranges
`10.0.0.0/8`, `192.168.0.0/16`, `172.16.0.0/12`. -/
def rfc1918Quad (s : PStr) : Bool :=
  match ipv4? s with
  | some (a, b, _, _) => a == 10 || (a == 192 && b == 168) || (a == 172 && (16 ≤ b && b ≤ 31))
  | none => false

/-- Modelled from the spec: the internal-host pattern of §4.4 applied to
a normalised host — `localhost`, loopback (all of IPv4 `127.0.0.0/8`,
plus IPv6 `::1`), a `.local`/`.internal` suffix, or the RFC1918 ranges
`10.0.0.0/8`, `192.168.0.0/16`, `172.16.0.0/12`. -/
def spec_internal_host_pattern (s : PStr) : Bool :=
  s = pstr "localhost" ||
  (match ipv4? s with | some (a, _, _, _) => a == 127 | none => false) ||
  s = pstr "::1" ||
  pyEndsWith s (pstr ".local") || pyEndsWith s (pstr ".internal") ||
  rfc1918Quad s

/-- The amended internal-host pattern: as the spec's, but with
"loopback" narrowed to the literals `127.0.0.1` and `::1` that the code
actually checks. -/
def amended_internal_host_pattern (s : PStr) : Bool :=
  s = pstr "localhost" || s = pstr "127.0.0.1" || s = pstr "::1" ||
  pyEndsWith s (pstr ".local") || pyEndsWith s (pstr ".internal") ||
  rfc1918Quad s

/-! ### Views of the presigned query string (C3) -/

/-- Number of entries of a dict-like pair list carrying a given key. -/
def countKey (d : List (PStr × PStr)) (k : PStr) : Nat :=
  d.countP (fun kv => decide (kv.1 = k))

/-- The six reserved presigned-URL parameter names. -/
def reservedKeys : List PStr :=
  [pstr "X-Amz-Algorithm", pstr "X-Amz-Credential", pstr "X-Amz-Date",
   pstr "X-Amz-Expires", pstr "X-Amz-SignedHeaders", pstr "X-Amz-Signature"]

/-- Percent-encode both components of a pair, as the query-string join
does. -/
def encPair (kv : PStr × PStr) : PStr × PStr := (pyQuote kv.1, pyQuote kv.2)

/-- The exact (encoded, sorted) parameter list whose `&`-join is the
query string of a generated presigned URL. -/
def presignedPairsEnc (sg : Signer) (method host path : PStr)
    (query_params : Option Dict) (expiry : Int) (ts : PyDateTime) :
    List (PStr × PStr) :=
  (pySorted pairLt (presignedParamsWithSig sg method host path query_params expiry ts)).map
    encPair

/-- Join already-encoded pairs into the query string. -/
def joinQuery (pairs : List (PStr × PStr)) : PStr :=
  pyJoin (pstr "&") (pairs.map (fun kv => kv.1 ++ '=' :: kv.2))

/-! ### Shared concrete instances for witnesses and counterexamples -/

/-- A client configured with only an internal endpoint. -/
def cfgMain : ClientCfg :=
  ⟨pstr "storage.example.net:9000", none, pstr "admin", pstr "secret", false⟩

/-- A fixed timestamp for witness instantiations. -/
def tsW : PyDateTime := ⟨2026, 1, 2, 3, 4, 5⟩

/-- A transport oracle that fails every attempt, tagging the error with
the attempt index. -/
def failOracle : PStr → PStr → Nat → Except TransportError HttpResponse :=
  fun _ _ attempt => .error ⟨attempt⟩

/-- The empty token cache of a fresh client. -/
def freshCache : TokenCache := ⟨none, none⟩

/-- A client with a public endpoint configured. -/
def cfgPub : ClientCfg :=
  ⟨pstr "storage.example.net:9000", some (pstr "storage-public.example.com"),
   pstr "admin", pstr "secret", false⟩

/-- A client whose public endpoint parses to an empty host. -/
def cfgPubNoHost : ClientCfg :=
  ⟨pstr "storage.example.net:9000", some (pstr "http://:9000"),
   pstr "admin", pstr "secret", false⟩

/-! ### Helper lemmas -/

/-- `_validate_expiry` raises exactly on an out-of-range expiry. -/
theorem validate_expiry_err {e : Int} (h : e < 1 ∨ e > 604800) :
    validate_expiry e = .error .invalidExpiry := by
  unfold validate_expiry
  rw [if_pos h]

/-- Shifting a range of backoff sleeps by one attempt. -/
theorem backoff_range_shift (a n : Nat) :
    backoffMs a :: (List.range n).map (fun j => backoffMs (a + 1 + j)) =
      (List.range (n + 1)).map (fun j => backoffMs (a + j)) := by
  rw [List.range_succ_eq_map, List.map_cons, List.map_map, Nat.add_zero]
  congr 1
  apply List.map_congr_left
  intro j _
  simp only [Function.comp_apply]
  congr 1
  omega

/-- The retry loop returns the first transport success untouched, after
one attempt per preceding failure and the documented backoff sleeps. -/
theorem requestLoop_first_ok (t : PStr → PStr → Nat → Except TransportError HttpResponse)
    (method url : PStr) (es : Nat → TransportError) :
    ∀ i r a, i < r → t method url (a + i) = .ok resp →
      (∀ j, j < i → t method url (a + j) = .error (es (a + j))) →
      requestLoop t method url a r =
        ⟨.ok (some resp), i + 1, (List.range i).map (fun j => backoffMs (a + j))⟩ := by
  intro i
  induction i with
  | zero =>
    intro r a hr hok _
    obtain ⟨r', rfl⟩ := Nat.exists_eq_succ_of_ne_zero (by omega : r ≠ 0)
    simp only [Nat.add_zero] at hok
    simp [requestLoop, hok]
  | succ i ih =>
    intro r a hr hok hfail
    obtain ⟨r', rfl⟩ := Nat.exists_eq_succ_of_ne_zero (by omega : r ≠ 0)
    have h0 : t method url a = .error (es a) := by
      have := hfail 0 (by omega)
      simpa using this
    have hr' : r' ≠ 0 := by omega
    have hrec := ih r' (a + 1) (by omega)
      (by rw [show a + 1 + i = a + (i + 1) by omega]; exact hok)
      (fun j hj => by
        rw [show a + 1 + j = a + (j + 1) by omega]
        exact hfail (j + 1) (by omega))
    simp only [requestLoop, h0, hr', ite_false, hrec, backoff_range_shift]

/-- The retry loop never makes more attempts than its budget. -/
theorem requestLoop_attempts_le (t : PStr → PStr → Nat → Except TransportError HttpResponse)
    (method url : PStr) : ∀ r a, (requestLoop t method url a r).attempts ≤ r := by
  intro r
  induction r with
  | zero => intro a; simp [requestLoop]
  | succ r ih =>
    intro a
    simp only [requestLoop]
    cases t method url a with
    | ok resp => simp
    | error e =>
      by_cases hr : r = 0
      · simp [hr]
      · simp only [hr, ite_false]
        have := ih (a + 1)
        simpa using Nat.succ_le_succ this

/-- When every attempt in the budget fails, the loop makes exactly the
budgeted number of attempts and re-raises the last failure. -/
theorem requestLoop_all_fail (t : PStr → PStr → Nat → Except TransportError HttpResponse)
    (method url : PStr) (es : Nat → TransportError) :
    ∀ n a, (∀ j, j < n + 1 → t method url (a + j) = .error (es (a + j))) →
      requestLoop t method url a (n + 1) =
        ⟨.error (es (a + n)), n + 1, (List.range n).map (fun j => backoffMs (a + j))⟩ := by
  intro n
  induction n with
  | zero =>
    intro a hfail
    have h0 : t method url a = .error (es a) := by simpa using hfail 0 (by omega)
    simp [requestLoop, h0]
  | succ n ih =>
    intro a hfail
    have h0 : t method url a = .error (es a) := by simpa using hfail 0 (by omega)
    have hrec := ih (a + 1)
      (fun j hj => by
        rw [show a + 1 + j = a + (j + 1) by omega]
        exact hfail (j + 1) (by omega))
    have hshift : a + 1 + n = a + (n + 1) := by omega
    rw [requestLoop, h0]
    simp only [Nat.succ_ne_zero, ite_false, hrec, hshift, backoff_range_shift]

/-! ### Digit-string lemmas -/

/-- Fuel irrelevance for the digit expansion: any sufficient fuel gives
`natToChars`. -/
theorem natToCharsAux_eq_natToChars (n : Nat) : ∀ f, n < f → natToCharsAux f n = natToChars n := by
  induction n using Nat.strong_induction_on with
  | _ n ih =>
    intro f hf
    obtain ⟨f', rfl⟩ := Nat.exists_eq_succ_of_ne_zero (by omega : f ≠ 0)
    by_cases h10 : n < 10
    · simp [natToCharsAux, natToChars, h10]
    · have hdiv : n / 10 < n := Nat.div_lt_self (by omega) (by omega)
      have h1 : natToCharsAux f' (n / 10) = natToChars (n / 10) := ih (n / 10) hdiv f' (by omega)
      have h2 : natToCharsAux n (n / 10) = natToChars (n / 10) := ih (n / 10) hdiv n (by omega)
      simp [natToCharsAux, natToChars, h10, h1, h2]

/-- The recurrence `natToChars` satisfies. -/
theorem natToChars_eq (n : Nat) :
    natToChars n = if n < 10 then [digitChar n]
                   else natToChars (n / 10) ++ [digitChar (n % 10)] := by
  by_cases h10 : n < 10
  · simp [natToChars, natToCharsAux, h10]
  · have hdiv : n / 10 < n := Nat.div_lt_self (by omega) (by omega)
    simp [natToChars, natToCharsAux, h10, natToCharsAux_eq_natToChars (n / 10) n hdiv]

/-- `digitVal?` inverts `digitChar` below 10. -/
theorem digitVal?_digitChar {d : Nat} (h : d < 10) : digitVal? (digitChar d) = some d := by
  interval_cases d <;> rfl

/-- Digit characters are not whitespace. -/
theorem isPySpace_digitChar {d : Nat} (h : d < 10) : isPySpace (digitChar d) = false := by
  interval_cases d <;> rfl

/-- Digit characters are not a sign. -/
theorem digitChar_ne_sign {d : Nat} (h : d < 10) : digitChar d ≠ '+' ∧ digitChar d ≠ '-' := by
  interval_cases d <;> exact ⟨by decide, by decide⟩

/-- Digit characters are in `quote`'s always-safe set. -/
theorem isAlwaysSafe_digitChar {d : Nat} (h : d < 10) : isAlwaysSafe (digitChar d) = true := by
  interval_cases d <;> rfl

/-- Every character of a digit expansion is a digit character. -/
theorem natToChars_all_digits (n : Nat) :
    ∀ c ∈ natToChars n, ∃ d, d < 10 ∧ c = digitChar d := by
  induction n using Nat.strong_induction_on with
  | _ n ih =>
    intro c hc
    rw [natToChars_eq] at hc
    by_cases h10 : n < 10
    · rw [if_pos h10] at hc
      simp at hc
      exact ⟨n, h10, hc⟩
    · rw [if_neg h10] at hc
      rcases List.mem_append.mp hc with h | h
      · exact ih (n / 10) (Nat.div_lt_self (by omega) (by omega)) c h
      · simp at h
        exact ⟨n % 10, Nat.mod_lt _ (by omega), h⟩

/-- Digit expansions are never empty. -/
theorem natToChars_ne_nil (n : Nat) : natToChars n ≠ [] := by
  rw [natToChars_eq]
  by_cases h10 : n < 10
  · simp [h10]
  · simp [h10]

/-- The decimal fold over a digit expansion. -/
theorem foldl_digitStep_natToChars (v : Nat) :
    ∀ acc : Nat, (natToChars v).foldl digitStep (some acc) =
      some (acc * 10 ^ (natToChars v).length + v) := by
  induction v using Nat.strong_induction_on with
  | _ v ih =>
    intro acc
    by_cases h10 : v < 10
    · rw [natToChars_eq, if_pos h10]
      simp [digitStep, digitVal?_digitChar h10]
    · have hdiv : v / 10 < v := Nat.div_lt_self (by omega) (by omega)
      have hmod : v % 10 < 10 := Nat.mod_lt _ (by omega)
      rw [natToChars_eq, if_neg h10, List.foldl_append, ih (v / 10) hdiv acc]
      simp [digitStep, digitVal?_digitChar hmod, List.length_append]
      rw [pow_succ]
      have hdm := Nat.div_add_mod v 10
      ring_nf
      omega

/-- `digitsToNat?` inverts `natToChars`. -/
theorem digitsToNat?_natToChars (v : Nat) : digitsToNat? (natToChars v) = some v := by
  obtain ⟨c, t, hshape⟩ := List.exists_cons_of_ne_nil (natToChars_ne_nil v)
  have h := foldl_digitStep_natToChars v 0
  rw [hshape] at h ⊢
  simp only [digitsToNat?]
  rw [h]
  simp

/-- Stripping is the identity on whitespace-free strings. -/
theorem pyStrip_eq_self {s : PStr} (h : ∀ c ∈ s, isPySpace c = false) : pyStrip s = s := by
  unfold pyStrip
  have h1 : s.dropWhile isPySpace = s := by
    cases s with
    | nil => rfl
    | cons c t => simp [List.dropWhile, h c (by simp)]
  rw [h1]
  have h2 : s.reverse.dropWhile isPySpace = s.reverse := by
    cases hs : s.reverse with
    | nil => rfl
    | cons c t =>
      have hc : c ∈ s := by
        rw [← List.mem_reverse, hs]
        simp
      simp [List.dropWhile, h c hc]
  rw [h2, List.reverse_reverse]

/-- Stripping is the identity on digit expansions. -/
theorem pyStrip_natToChars (v : Nat) : pyStrip (natToChars v) = natToChars v := by
  apply pyStrip_eq_self
  intro c hc
  obtain ⟨d, hd, rfl⟩ := natToChars_all_digits v c hc
  exact isPySpace_digitChar hd

/-- `int()` inverts `str()` on naturals. -/
theorem pyInt?_natToChars (v : Nat) : pyInt? (natToChars v) = some (Int.ofNat v) := by
  obtain ⟨c, t, hshape⟩ := List.exists_cons_of_ne_nil (natToChars_ne_nil v)
  have hcmem : c ∈ natToChars v := by rw [hshape]; simp
  obtain ⟨d, hd, rfl⟩ := natToChars_all_digits v c hcmem
  have hsign := digitChar_ne_sign hd
  unfold pyInt?
  rw [pyStrip_natToChars, hshape]
  simp only [if_neg hsign.1, if_neg hsign.2]
  rw [← hshape, digitsToNat?_natToChars]
  rfl

/-- What a successful octet parse tells us about the string. -/
theorem parseOctet?_some {s : PStr} {v : Nat} (h : parseOctet? s = some v) :
    s = natToChars v ∧ v ≤ 255 := by
  unfold parseOctet? at h
  split at h
  · split at h
    · rename_i w _ hc
      have : w = v := by simpa using h
      subst this
      exact ⟨hc.2, hc.1⟩
    · exact absurd h (by simp)
  · exact absurd h (by simp)

/-! ### `pySplit` / `joinChar` lemmas -/

/-- A split never produces the empty list of parts. -/
theorem pySplit_ne_nil (sep : Char) (s : PStr) : pySplit sep s ≠ [] := by
  cases s with
  | nil => simp [pySplit]
  | cons c t =>
    simp only [pySplit]
    by_cases hc : c = sep
    · simp [hc]
    · simp only [hc, if_false]
      cases pySplit sep t <;> simp

/-- Joining undoes splitting. -/
theorem joinChar_pySplit (sep : Char) (s : PStr) : joinChar sep (pySplit sep s) = s := by
  induction s with
  | nil => rfl
  | cons c t ih =>
    by_cases hc : c = sep
    · subst hc
      simp only [pySplit, if_pos rfl]
      obtain ⟨p, ps, hps⟩ := List.exists_cons_of_ne_nil (pySplit_ne_nil c t)
      rw [hps]
      rw [hps] at ih
      simp only [joinChar]
      simpa using ih
    · simp only [pySplit, if_neg hc]
      obtain ⟨p, ps, hps⟩ := List.exists_cons_of_ne_nil (pySplit_ne_nil sep t)
      rw [hps]
      rw [hps] at ih
      cases ps with
      | nil =>
        simp only [joinChar] at ih ⊢
        rw [ih]
      | cons q qs =>
        simp only [joinChar] at ih ⊢
        rw [List.cons_append, ih]

/-- A list starts with any of its own prefixes. -/
theorem pyStartsWith_append (p t : PStr) : pyStartsWith (p ++ t) p = true := by
  simp [pyStartsWith, List.isPrefixOf_iff_prefix]

/-- What a successful IPv4 parse tells us about the string. -/
theorem ipv4?_some {s : PStr} {a b c d : Nat} (h : ipv4? s = some (a, b, c, d)) :
    pySplit '.' s = [natToChars a, natToChars b, natToChars c, natToChars d] ∧
    a ≤ 255 ∧ b ≤ 255 := by
  unfold ipv4? at h
  split at h
  case _ A B C D hsp =>
    simp only [Option.bind_eq_bind, Option.bind_eq_some, Option.pure_def,
      Option.some.injEq, Prod.mk.injEq] at h
    obtain ⟨va, hA, vb, hB, vc, hC, vd, hD, rfl, rfl, rfl, rfl⟩ := h
    obtain ⟨hA1, hA2⟩ := parseOctet?_some hA
    obtain ⟨hB1, hB2⟩ := parseOctet?_some hB
    obtain ⟨hC1, _⟩ := parseOctet?_some hC
    obtain ⟨hD1, _⟩ := parseOctet?_some hD
    exact ⟨by rw [hsp, ← hA1, ← hB1, ← hC1, ← hD1], hA2, hB2⟩
  case _ => exact absurd h (by simp)

/-! ### Internal-host guardrail lemmas -/

/-- The clause chain accepts the three literal spellings. -/
theorem core_true_of_literal (n : PStr)
    (h : n = pstr "localhost" ∨ n = pstr "127.0.0.1" ∨ n = pstr "::1") :
    internal_host_core n = true := by
  rcases h with rfl | rfl | rfl <;> decide

/-- The clause chain rejects `.local` / `.internal` suffixes. -/
theorem core_true_of_endsWith (n : PStr)
    (h : pyEndsWith n (pstr ".local") = true ∨ pyEndsWith n (pstr ".internal") = true) :
    internal_host_core n = true := by
  unfold internal_host_core
  split_ifs <;> simp_all

/-- The clause chain rejects `10.` / `192.168.` string prefixes. -/
theorem core_true_of_starts (n : PStr)
    (h : pyStartsWith n (pstr "10.") = true ∨ pyStartsWith n (pstr "192.168.") = true) :
    internal_host_core n = true := by
  unfold internal_host_core
  split_ifs <;> simp_all

/-- The clause chain rejects a host splitting as `172.<k>.…` with
`16 ≤ k ≤ 31`. -/
theorem core_true_of_172 (n B : PStr) (rest : List PStr) (k : Int)
    (hsplit : pySplit '.' n = natToChars 172 :: B :: rest)
    (hint : pyInt? B = some k) (h16 : 16 ≤ k) (h31 : k ≤ 31) :
    internal_host_core n = true := by
  have hj := joinChar_pySplit '.' n
  rw [hsplit] at hj
  simp only [joinChar] at hj
  have hstart : pyStartsWith n (pstr "172.") = true := by
    rw [← hj]
    exact pyStartsWith_append (pstr "172.") (joinChar '.' (B :: rest))
  unfold internal_host_core
  split_ifs <;> simp_all

/-- The amended spec pattern implies the code's clause chain. -/
theorem amended_pattern_core (n : PStr)
    (h : amended_internal_host_pattern n = true) : internal_host_core n = true := by
  unfold amended_internal_host_pattern at h
  simp only [Bool.or_eq_true, decide_eq_true_eq] at h
  rcases h with ((((h | h) | h) | h) | h) | h
  · exact core_true_of_literal n (Or.inl h)
  · exact core_true_of_literal n (Or.inr (Or.inl h))
  · exact core_true_of_literal n (Or.inr (Or.inr h))
  · exact core_true_of_endsWith n (Or.inl h)
  · exact core_true_of_endsWith n (Or.inr h)
  · unfold rfc1918Quad at h
    cases hip : ipv4? n with
    | none => rw [hip] at h; exact absurd h (by simp)
    | some q =>
      obtain ⟨a, b, c, d⟩ := q
      rw [hip] at h
      simp only [Bool.or_eq_true, Bool.and_eq_true, beq_iff_eq, decide_eq_true_eq] at h
      obtain ⟨hsp, _, _⟩ := ipv4?_some hip
      have hj := joinChar_pySplit '.' n
      rw [hsp] at hj
      simp only [joinChar] at hj
      rcases h with (rfl | ⟨rfl, rfl⟩) | ⟨rfl, hb⟩
      · apply core_true_of_starts n (Or.inl ?_)
        rw [← hj]
        exact pyStartsWith_append (pstr "10.")
          (natToChars b ++ '.' :: (natToChars c ++ '.' :: natToChars d))
      · apply core_true_of_starts n (Or.inr ?_)
        rw [← hj]
        exact pyStartsWith_append (pstr "192.168.")
          (natToChars c ++ '.' :: natToChars d)
      · exact core_true_of_172 n (natToChars b) [natToChars c, natToChars d] (Int.ofNat b)
          hsp (pyInt?_natToChars b)
          (by simp only [Int.ofNat_eq_coe]; exact_mod_cast hb.1)
          (by simp only [Int.ofNat_eq_coe]; exact_mod_cast hb.2)

/-- The guardrail fails with `RejectedInternalHost` whenever the parsed
URL is absolute and its host is internal by the code's test. -/
theorem validate_rejects_internal (c : ClientCfg) (url : PStr) (e : Int) (b o : PStr)
    (hs : (urlparse url).scheme ≠ []) (hn : (urlparse url).netloc ≠ [])
    (hhost : is_internal_host (hostnameOf (urlparse url).netloc) = true) :
    validate_and_log_presigned_url c url e b o = .error .rejectedInternalHost := by
  unfold validate_and_log_presigned_url
  rw [if_neg (not_or.mpr ⟨hs, hn⟩), if_pos hhost]

/-! ### Dict / sort / encoding lemmas for the query string (C3) -/

/-- Setting an unrelated key does not change a key's count. -/
theorem countKey_dictSet_other {d : Dict} {k k' : PStr} {v : PStr} (hne : k ≠ k') :
    countKey (dictSet d k v) k' = countKey d k' := by
  unfold dictSet countKey
  by_cases hmem : d.any (fun kv => kv.1 = k) = true
  · rw [if_pos hmem, List.countP_map]
    apply List.countP_congr
    intro kv _
    by_cases hk : kv.1 = k
    · simp [hk, hne]
    · simp [hk]
  · rw [if_neg hmem, List.countP_append]
    simp [hne]

/-- Setting a key absent from the dict makes its count one. -/
theorem countKey_dictSet_absent {d : Dict} {k : PStr} {v : PStr}
    (h : countKey d k = 0) :
    countKey (dictSet d k v) k = 1 := by
  have hany : d.any (fun kv => kv.1 = k) = false := by
    rw [List.any_eq_false]
    intro kv hkv
    have := List.countP_eq_zero.mp h kv hkv
    simpa using this
  unfold dictSet countKey
  rw [if_neg (by simp [hany]), List.countP_append]
  have h0 : List.countP (fun kv => decide (kv.1 = k)) d = 0 := h
  rw [h0]
  simp

/-- `dict.update` with keys all different from `k` preserves `k`'s
count. -/
theorem countKey_dictUpdate {e : Dict} : ∀ {d : Dict} {k : PStr},
    (∀ kv ∈ e, kv.1 ≠ k) → countKey (dictUpdate d e) k = countKey d k := by
  induction e with
  | nil => intro d k _; rfl
  | cons kv e ih =>
    intro d k h
    have : countKey (dictUpdate (dictSet d kv.1 kv.2) e) k =
        countKey (dictSet d kv.1 kv.2) k :=
      ih (fun kv2 h2 => h kv2 (by simp [h2]))
    calc countKey (dictUpdate d (kv :: e)) k
        = countKey (dictUpdate (dictSet d kv.1 kv.2) e) k := rfl
      _ = countKey (dictSet d kv.1 kv.2) k := this
      _ = countKey d k := countKey_dictSet_other (h kv (by simp))

/-- An entry with a different key survives a `dict` assignment. -/
theorem mem_dictSet_other {d : Dict} {kv : PStr × PStr} {k v : PStr}
    (h : kv ∈ d) (hk : kv.1 ≠ k) : kv ∈ dictSet d k v := by
  unfold dictSet
  by_cases hmem : d.any (fun kv => kv.1 = k) = true
  · rw [if_pos hmem]
    have : (fun x => if x.1 = k then (k, v) else x) kv = kv := by simp [hk]
    rw [← this]
    exact List.mem_map_of_mem _ h
  · rw [if_neg hmem]
    exact List.mem_append_left _ h

/-- An entry whose key the update never touches survives `dict.update`. -/
theorem mem_dictUpdate {e : Dict} : ∀ {d : Dict} {kv : PStr × PStr},
    kv ∈ d → (∀ kv2 ∈ e, kv2.1 ≠ kv.1) → kv ∈ dictUpdate d e := by
  induction e with
  | nil => intro d kv h _; exact h
  | cons kv2 e ih =>
    intro d kv h hks
    exact ih (mem_dictSet_other h (fun hc => hks kv2 (by simp) hc.symm))
      (fun kv3 h3 => hks kv3 (by simp [h3]))

/-- Stable insertion permutes to plain cons. -/
theorem insLe_perm (lt : α → α → Bool) (x : α) :
    ∀ l : List α, List.Perm (insLe lt x l) (x :: l) := by
  intro l
  induction l with
  | nil => exact List.Perm.refl _
  | cons y ys ih =>
    unfold insLe
    by_cases hxy : lt x y = true
    · rw [if_pos hxy]
    · rw [if_neg hxy]
      exact (ih.cons y).trans (List.Perm.swap x y ys)

/-- The fold underlying `pySorted` permutes to append. -/
theorem foldl_insLe_perm (lt : α → α → Bool) :
    ∀ l acc : List α, List.Perm (l.foldl (fun a x => insLe lt x a) acc) (acc ++ l) := by
  intro l
  induction l with
  | nil => intro acc; simp
  | cons x xs ih =>
    intro acc
    have h1 := ih (insLe lt x acc)
    have h2 := (insLe_perm lt x acc).append_right xs
    have h3 : List.Perm ((x :: acc) ++ xs) (acc ++ x :: xs) := List.perm_middle.symm
    exact (h1.trans h2).trans h3

/-- `pySorted` permutes its input. -/
theorem pySorted_perm (lt : α → α → Bool) (l : List α) : List.Perm (pySorted lt l) l := by
  simpa using foldl_insLe_perm lt l []

/-- UTF-8 never encodes a code point to nothing. -/
theorem utf8Char_ne_nil (c : Char) : utf8Char c ≠ [] := by
  unfold utf8Char
  split_ifs <;> simp

/-- A percent-free percent-encoding output pins down its input. -/
theorem pyQuote_eq_of_no_percent : ∀ {k L : PStr}, '%' ∉ L → pyQuote k = L → k = L := by
  intro k
  induction k with
  | nil =>
    intro L _ h
    exact h
  | cons c rest ih =>
    intro L hL h
    simp only [pyQuote, List.map_cons, List.flatten_cons] at h
    by_cases hsafe : isAlwaysSafe c = true
    · rw [show quoteChar c = [c] from by simp [quoteChar, hsafe]] at h
      cases L with
      | nil => simp at h
      | cons cL Lrest =>
        simp only [List.cons_append, List.cons.injEq] at h
        obtain ⟨rfl, hrest⟩ := h
        have hLrest : '%' ∉ Lrest := fun hm => hL (by simp [hm])
        have := ih hLrest hrest
        rw [this]
    · exfalso
      apply hL
      rw [← h]
      have hq : '%' ∈ quoteChar c := by
        unfold quoteChar
        rw [if_neg hsafe]
        obtain ⟨b, bs, hb⟩ := List.exists_cons_of_ne_nil (utf8Char_ne_nil c)
        rw [hb]
        simp
      exact List.mem_append_left _ hq

/-- Percent-encoding is the identity on always-safe strings. -/
theorem pyQuote_safe : ∀ {s : PStr}, (∀ c ∈ s, isAlwaysSafe c = true) → pyQuote s = s := by
  intro s
  induction s with
  | nil => intro _; rfl
  | cons c rest ih =>
    intro h
    simp only [pyQuote, List.map_cons, List.flatten_cons]
    rw [show quoteChar c = [c] from by simp [quoteChar, h c (by simp)]]
    have := ih (fun c2 h2 => h c2 (by simp [h2]))
    simp only [pyQuote] at this
    rw [this]
    rfl

/-- Counting a percent-free literal key commutes with encoding the
pairs. -/
theorem countKey_map_encPair {pairs : List (PStr × PStr)} {L : PStr}
    (hL : '%' ∉ L) (hQL : pyQuote L = L) :
    countKey (pairs.map encPair) L = countKey pairs L := by
  unfold countKey
  rw [List.countP_map]
  apply List.countP_congr
  intro kv _
  simp only [Function.comp_apply, encPair, decide_eq_true_eq]
  constructor
  · exact fun h => pyQuote_eq_of_no_percent hL h
  · intro h
    rw [h]
    exact hQL

/-- The query-string builder, expressed over the encoded sorted pairs. -/
theorem build_canonical_querystring_eq {d : Dict} (h : d ≠ []) :
    build_canonical_querystring d = joinQuery ((pySorted pairLt d).map encPair) := by
  obtain ⟨x, xs, rfl⟩ := List.exists_cons_of_ne_nil h
  have hmaps : List.map (fun kv : PStr × PStr => pyQuote kv.1 ++ ['='] ++ pyQuote kv.2)
      (pySorted pairLt (x :: xs)) =
      List.map ((fun kv : PStr × PStr => kv.1 ++ '=' :: kv.2) ∘ encPair)
      (pySorted pairLt (x :: xs)) := by
    apply List.map_congr_left
    intro kv _
    simp [encPair, List.append_assoc]
  unfold build_canonical_querystring joinQuery
  rw [List.map_map, ← hmaps]

/-- `presignedParamsWithSig` is the base dict updated with the caller's
parameters and then assigned `X-Amz-Signature`. -/
theorem presignedParamsWithSig_shape (sg : Signer) (method host path : PStr)
    (qp : Option Dict) (e : Int) (ts : PyDateTime) :
    ∃ sig, presignedParamsWithSig sg method host path qp e ts =
      dictSet (dictUpdate (presignedBaseParams sg e ts) (qp.getD []))
        (pstr "X-Amz-Signature") sig :=
  ⟨_, rfl⟩

/-! ### Claim theorems -/

/-- **C1**: for every `expires_in_seconds` outside `[1, 604800]`,
`presigned_get_object`, `presigned_put_object` and the signer's
`generate_presigned_url` fail with the `InvalidExpiry` error, whatever
the other arguments are — in each embedded function the range check is
the first operation, before any hashing, key derivation or signature
computation. -/
theorem expiry_validated_before_signing
    (c : ClientCfg) (bucket obj : PStr) (e : Int) (browser : Bool)
    (now : PyDateTime) (ct : Option PStr) (sg : Signer)
    (method host path : PStr) (qp : Option Dict) (ei : Int) (https : Bool)
    (tsp : Option PyDateTime)
    (h : e < 1 ∨ e > 604800) :
    presigned_get_object c bucket obj e browser now = .error .invalidExpiry ∧
    presigned_put_object c bucket obj e ct browser now = .error .invalidExpiry ∧
    generate_presigned_url sg method host path qp ei (some e) https tsp now =
      .error .invalidExpiry := by
  refine ⟨?_, ?_, ?_⟩
  · unfold presigned_get_object
    rw [validate_expiry_err h]
    rfl
  · unfold presigned_put_object
    rw [validate_expiry_err h]
    rfl
  · unfold generate_presigned_url
    simp only [Option.getD_some]
    rw [if_pos h]

/-- Witness for C1 at the spec's own scenario input `604801`. -/
theorem expiry_validated_before_signing_witness :
    ((604801 : Int) < 1 ∨ (604801 : Int) > 604800) ∧
    (presigned_get_object cfgMain (pstr "b") (pstr "o") 604801 true tsW =
        .error .invalidExpiry ∧
     presigned_put_object cfgMain (pstr "b") (pstr "o") 604801 none true tsW =
        .error .invalidExpiry ∧
     generate_presigned_url ⟨pstr "admin", pstr "secret"⟩ (pstr "GET") (pstr "h")
        (pstr "/p") none 3600 (some 604801) false none tsW = .error .invalidExpiry) :=
  ⟨Or.inr (by decide),
   expiry_validated_before_signing cfgMain (pstr "b") (pstr "o") 604801 true tsW none
     ⟨pstr "admin", pstr "secret"⟩ (pstr "GET") (pstr "h") (pstr "/p") none 3600 false none
     (Or.inr (by decide))⟩

/-- **C4**: with the timestamp fixed, both `sign_request` and
`generate_presigned_url` are independent of the ambient clock
(`datetime.now(UTC)`, the only impure input): any two invocations on the
same `(credentials, method, host, path, query, headers, body,
timestamp)` tuple agree on the produced headers, and on the produced URL
including `X-Amz-Signature`. -/
theorem signing_deterministic (sg : Signer) (method host path : PStr)
    (qp : Option Dict) (headers : Option Dict) (body : Option Bytes)
    (ts : PyDateTime) (ei : Int) (eis : Option Int) (https : Bool)
    (now1 now2 : PyDateTime) :
    sign_request sg method host path qp headers body (some ts) now1 =
      sign_request sg method host path qp headers body (some ts) now2 ∧
    generate_presigned_url sg method host path qp ei eis https (some ts) now1 =
      generate_presigned_url sg method host path qp ei eis https (some ts) now2 :=
  ⟨rfl, rfl⟩

/-- **C5**: the request pipeline retries only transport-level failures —
a transport success is returned immediately whatever its HTTP status,
after `i + 1` attempts when the first `i` attempts failed, sleeping
`min(1000 * 2^attempt, 10000)` ms between attempts; it never exceeds
`max_retries` attempts; and when every budgeted attempt fails it
re-raises the last transport error after exactly `max_retries`
attempts. -/
theorem http_retry_policy (m : Nat)
    (t : PStr → PStr → Nat → Except TransportError HttpResponse)
    (method url : PStr) :
    (∀ (es : Nat → TransportError) (i : Nat) (resp : HttpResponse),
       i < m → t method url i = .ok resp →
       (∀ j, j < i → t method url j = .error (es j)) →
       http_request m t method url =
         ⟨.ok (some resp), i + 1, (List.range i).map backoffMs⟩) ∧
    (http_request m t method url).attempts ≤ m ∧
    (∀ es : Nat → TransportError, 0 < m →
       (∀ j, j < m → t method url j = .error (es j)) →
       http_request m t method url =
         ⟨.error (es (m - 1)), m, (List.range (m - 1)).map backoffMs⟩) := by
  refine ⟨?_, ?_, ?_⟩
  · intro es i resp hi hok hfail
    have := requestLoop_first_ok t method url es i m 0 hi (by simpa using hok)
      (fun j hj => by simpa using hfail j hj)
    simpa [http_request] using this
  · exact requestLoop_attempts_le t method url m 0
  · intro es hm hfail
    obtain ⟨n, rfl⟩ := Nat.exists_eq_succ_of_ne_zero (by omega : m ≠ 0)
    have := requestLoop_all_fail t method url es n 0
      (fun j hj => by simpa using hfail j hj)
    simpa [http_request] using this

/-- Witness for C5 at the spec's scenario: `max_retries = 3` and three
consecutive transport failures surface the third failure (tag 2) after
exactly three attempts and two backoff sleeps. -/
theorem http_retry_policy_witness :
    (0 : Nat) < 3 ∧
    http_request 3 failOracle (pstr "GET") (pstr "http://storage.example.net:9000/b") =
      ⟨.error ⟨2⟩, 3, [1000, 2000]⟩ := by
  refine ⟨by decide, ?_⟩
  have h := (http_retry_policy 3 failOracle (pstr "GET")
      (pstr "http://storage.example.net:9000/b")).2.2
    (fun j => ⟨j⟩) (by decide) (fun j _ => rfl)
  simpa [backoffMs] using h

/-- **C9**: a client built with `max_retries = 0` never enters the retry
loop: for every method and URL, `_request` performs zero transport
attempts, raises nothing, and falls off the loop returning `None`. -/
theorem zero_retries_returns_none
    (t : PStr → PStr → Nat → Except TransportError HttpResponse)
    (method url : PStr) :
    http_request 0 t method url = ⟨.ok none, 0, []⟩ := rfl

/-- **C7**: from an empty cache, `_get_auth_token` logs in once and
returns the token of the login response (`"t1"`), storing it with expiry
`now + 7h` (issue time plus the fixed margin); every later call before
that stored expiry returns `"t1"` from the cache with no further login,
whatever the login oracle would answer. -/
theorem token_cached_until_expiry (now now2 : Nat) (login2 : LoginOutcome)
    (h2 : now2 < now + tokenMargin) :
    get_auth_token freshCache now (.response ⟨200, some (pstr "t1")⟩) =
      ⟨.ok (pstr "t1"), ⟨some (pstr "t1"), some (now + tokenMargin)⟩, 1⟩ ∧
    get_auth_token ⟨some (pstr "t1"), some (now + tokenMargin)⟩ now2 login2 =
      ⟨.ok (pstr "t1"), ⟨some (pstr "t1"), some (now + tokenMargin)⟩, 0⟩ := by
  constructor
  · rfl
  · have hne : pstr "t1" ≠ [] := by decide
    have hhit : cacheHit ⟨some (pstr "t1"), some (now + tokenMargin)⟩ now2 = true := by
      simp [cacheHit, h2, hne]
    unfold get_auth_token
    rw [if_pos hhit]
    rfl

/-- Witness for C7 at concrete times 1000 and 1001, with a transport
failure standing by as the (unused) second login oracle. -/
theorem token_cached_until_expiry_witness :
    (1001 : Nat) < 1000 + tokenMargin ∧
    (get_auth_token freshCache 1000 (.response ⟨200, some (pstr "t1")⟩) =
       ⟨.ok (pstr "t1"), ⟨some (pstr "t1"), some (1000 + tokenMargin)⟩, 1⟩ ∧
     get_auth_token ⟨some (pstr "t1"), some (1000 + tokenMargin)⟩ 1001 .transportFailure =
       ⟨.ok (pstr "t1"), ⟨some (pstr "t1"), some (1000 + tokenMargin)⟩, 0⟩) :=
  ⟨by decide, token_cached_until_expiry 1000 1001 .transportFailure (by decide)⟩

/-- **C8**: on the refresh path (no valid cached token), a login
response with status `≥ 400` or with no `token` field raises
`AuthenticationFailed`, returns no token, and leaves the cache as it
was. -/
theorem login_failure_raises (cache : TokenCache) (now : Nat) (r : LoginResponse)
    (hmiss : cacheHit cache now = false)
    (hbad : r.status_code ≥ 400 ∨ r.token = none) :
    get_auth_token cache now (.response r) = ⟨.error .authenticationFailed, cache, 1⟩ := by
  unfold get_auth_token
  rw [hmiss]
  simp only [Bool.false_eq_true, if_false]
  rcases hbad with hs | ht
  · rw [if_pos hs]
  · by_cases hs : r.status_code ≥ 400
    · rw [if_pos hs]
    · rw [if_neg hs, ht]

/-- Witness for C8: fresh cache, login answering 403 with no token. -/
theorem login_failure_raises_witness :
    cacheHit freshCache 1000 = false ∧
    ((403 : Nat) ≥ 400 ∨ (none : Option PStr) = none) ∧
    get_auth_token freshCache 1000 (.response ⟨403, none⟩) =
      ⟨.error .authenticationFailed, freshCache, 1⟩ :=
  ⟨by decide, Or.inl (by decide),
   login_failure_raises freshCache 1000 ⟨403, none⟩ rfl (Or.inl (by decide))⟩

/-- **C10**: whenever `_get_auth_token` raises (the only raised error is
`AuthenticationFailed`, covering a bad status, a missing/empty token
field, and a wrapped transport exception), the cached token and expiry
are exactly what they were before the call: the cache is written only
after a token has been extracted from the login response. -/
theorem auth_failure_preserves_cache (cache : TokenCache) (now : Nat)
    (login : LoginOutcome)
    (h : (get_auth_token cache now login).result = .error .authenticationFailed) :
    (get_auth_token cache now login).cache = cache := by
  unfold get_auth_token at *
  by_cases hc : cacheHit cache now
  · rw [if_pos hc] at h
    exact absurd h (by simp)
  · rw [if_neg hc] at h ⊢
    cases login with
    | transportFailure => rfl
    | response r =>
      by_cases hs : r.status_code ≥ 400
      · simp only [hs, if_true]
      · simp only [hs, if_false] at h ⊢
        cases htok : r.token with
        | none => rfl
        | some tk =>
          rw [htok] at h
          by_cases he : tk = []
          · subst he
            rfl
          · simp [he] at h

/-- Witness for C10: an expired cache and a 500 login response leave the
stored token and expiry untouched. -/
theorem auth_failure_preserves_cache_witness :
    (get_auth_token ⟨some (pstr "old"), some 50⟩ 100 (.response ⟨500, some (pstr "x")⟩)).result =
      .error .authenticationFailed ∧
    (get_auth_token ⟨some (pstr "old"), some 50⟩ 100 (.response ⟨500, some (pstr "x")⟩)).cache =
      ⟨some (pstr "old"), some 50⟩ :=
  ⟨rfl, auth_failure_preserves_cache ⟨some (pstr "old"), some 50⟩ 100
    (.response ⟨500, some (pstr "x")⟩) rfl⟩

/-- **C2** (counterexample): `127.0.0.2` is a loopback address, so it
matches the spec's internal-host pattern, yet `_is_internal_host`
accepts it (the code checks only the literal `127.0.0.1`), and the
browser-accessible guardrail returns the URL unrejected. -/
theorem internal_host_loopback_gap :
    spec_internal_host_pattern (pstr "127.0.0.2") = true ∧
    is_internal_host (pstr "127.0.0.2") = false ∧
    validate_and_log_presigned_url cfgMain (pstr "http://127.0.0.2/bucket/obj") 3600
      (pstr "bucket") (pstr "obj") = .ok (pstr "http://127.0.0.2/bucket/obj") :=
  ⟨by decide, by decide, rfl⟩

/-- **C2** (amended): for every browser-accessible presigned URL, a
resolved, normalised host matching the amended internal-host pattern —
`localhost`, the loopback literals `127.0.0.1` and `::1`, a
`.local`/`.internal` suffix, or the RFC1918 ranges `10.0.0.0/8`,
`192.168.0.0/16`, `172.16.0.0/12` — is rejected with
`RejectedInternalHost`; in particular the spec's seven examples are
treated as internal, and `storage-public.example.com` is not. -/
theorem internal_hosts_rejected (c : ClientCfg) (url : PStr) (e : Int) (b o : PStr)
    (hs : (urlparse url).scheme ≠ []) (hn : (urlparse url).netloc ≠ [])
    (hmatch : amended_internal_host_pattern
      (pyLower (pyStrip (hostnameOf (urlparse url).netloc))) = true) :
    validate_and_log_presigned_url c url e b o = .error .rejectedInternalHost ∧
    is_internal_host (pstr "127.0.0.1") = true ∧
    is_internal_host (pstr "localhost") = true ∧
    is_internal_host (pstr "10.1.2.3") = true ∧
    is_internal_host (pstr "192.168.0.5") = true ∧
    is_internal_host (pstr "172.20.0.1") = true ∧
    is_internal_host (pstr "foo.local") = true ∧
    is_internal_host (pstr "foo.internal") = true ∧
    is_internal_host (pstr "storage-public.example.com") = false := by
  refine ⟨?_, by decide, by decide, by decide, by decide, by decide, by decide,
    by decide, by decide⟩
  exact validate_rejects_internal c url e b o hs hn (amended_pattern_core _ hmatch)

/-- Witness for C2 at the RFC1918 host `10.1.2.3`. -/
theorem internal_hosts_rejected_witness :
    ((urlparse (pstr "http://10.1.2.3/bucket/obj")).scheme ≠ [] ∧
     (urlparse (pstr "http://10.1.2.3/bucket/obj")).netloc ≠ [] ∧
     amended_internal_host_pattern
       (pyLower (pyStrip (hostnameOf (urlparse (pstr "http://10.1.2.3/bucket/obj")).netloc))) =
       true) ∧
    validate_and_log_presigned_url cfgMain (pstr "http://10.1.2.3/bucket/obj") 3600
      (pstr "bucket") (pstr "obj") = .error .rejectedInternalHost :=
  ⟨⟨by decide, by decide, by decide⟩,
   (internal_hosts_rejected cfgMain (pstr "http://10.1.2.3/bucket/obj") 3600
     (pstr "bucket") (pstr "obj") (by decide) (by decide) (by decide)).1⟩

/-- **C3**: for every valid presigned-URL input (expiry in range,
caller query keys off the reserved `X-Amz-*` names), the generated URL
is `scheme://host path ? query` where the query string is the `&`-join
of `presignedPairsEnc`, and that parameter list carries exactly one
occurrence of each of the six `X-Amz-*` parameters, with
`X-Amz-Algorithm=AWS4-HMAC-SHA256`, `X-Amz-SignedHeaders=host`, and
`X-Amz-Expires` the expiry in seconds as a string. -/
theorem presigned_query_well_formed (sg : Signer) (method host path : PStr)
    (qp : Option Dict) (ei : Int) (eis : Option Int) (https : Bool)
    (tsp : Option PyDateTime) (now : PyDateTime)
    (hexp1 : 1 ≤ eis.getD ei) (hexp2 : eis.getD ei ≤ 604800)
    (hq : ∀ kv ∈ qp.getD [], kv.1 ∉ reservedKeys) :
    generate_presigned_url sg method host path qp ei eis https tsp now =
      .ok ((if https then pstr "https" else pstr "http") ++ pstr "://" ++ host ++ path ++
        ['?'] ++ joinQuery
          (presignedPairsEnc sg method host path qp (eis.getD ei) (tsp.getD now))) ∧
    (∀ L ∈ reservedKeys,
      countKey (presignedPairsEnc sg method host path qp (eis.getD ei) (tsp.getD now)) L
        = 1) ∧
    (pstr "X-Amz-Algorithm", pstr "AWS4-HMAC-SHA256") ∈
      presignedPairsEnc sg method host path qp (eis.getD ei) (tsp.getD now) ∧
    (pstr "X-Amz-SignedHeaders", pstr "host") ∈
      presignedPairsEnc sg method host path qp (eis.getD ei) (tsp.getD now) ∧
    (pstr "X-Amz-Expires", intToChars (eis.getD ei)) ∈
      presignedPairsEnc sg method host path qp (eis.getD ei) (tsp.getD now) := by
  obtain ⟨sig, hshape⟩ :=
    presignedParamsWithSig_shape sg method host path qp (eis.getD ei) (tsp.getD now)
  have hq' : ∀ L ∈ reservedKeys, ∀ kv ∈ qp.getD [], kv.1 ≠ L :=
    fun L hL kv hkv heq => hq kv hkv (heq ▸ hL)
  have hperm := pySorted_perm pairLt
    (presignedParamsWithSig sg method host path qp (eis.getD ei) (tsp.getD now))
  -- counts in the raw final dict
  have hchain : ∀ L ∈ reservedKeys, pstr "X-Amz-Signature" ≠ L →
      countKey (presignedParamsWithSig sg method host path qp (eis.getD ei) (tsp.getD now)) L
        = countKey (presignedBaseParams sg (eis.getD ei) (tsp.getD now)) L := by
    intro L hL hsig
    rw [hshape, countKey_dictSet_other hsig, countKey_dictUpdate (hq' L hL)]
  have hsigcount :
      countKey (presignedParamsWithSig sg method host path qp (eis.getD ei) (tsp.getD now))
        (pstr "X-Amz-Signature") = 1 := by
    rw [hshape]
    apply countKey_dictSet_absent
    rw [countKey_dictUpdate (hq' (pstr "X-Amz-Signature") (by decide))]
    rfl
  -- counts in the encoded sorted pairs
  have hENC : ∀ L, '%' ∉ L → pyQuote L = L →
      countKey (presignedPairsEnc sg method host path qp (eis.getD ei) (tsp.getD now)) L =
      countKey (presignedParamsWithSig sg method host path qp (eis.getD ei) (tsp.getD now))
        L := by
    intro L h1 h2
    unfold presignedPairsEnc
    rw [countKey_map_encPair h1 h2]
    exact hperm.countP_eq _
  have hcounts : ∀ L ∈ reservedKeys,
      countKey (presignedPairsEnc sg method host path qp (eis.getD ei) (tsp.getD now)) L
        = 1 := by
    intro L hL
    fin_cases hL
    · rw [hENC _ (by decide) (by decide), hchain _ (by decide) (by decide)]; rfl
    · rw [hENC _ (by decide) (by decide), hchain _ (by decide) (by decide)]; rfl
    · rw [hENC _ (by decide) (by decide), hchain _ (by decide) (by decide)]; rfl
    · rw [hENC _ (by decide) (by decide), hchain _ (by decide) (by decide)]; rfl
    · rw [hENC _ (by decide) (by decide), hchain _ (by decide) (by decide)]; rfl
    · rw [hENC _ (by decide) (by decide)]; exact hsigcount
  -- memberships
  have hmem : ∀ kv : PStr × PStr,
      kv ∈ presignedBaseParams sg (eis.getD ei) (tsp.getD now) →
      (∀ kv2 ∈ qp.getD [], kv2.1 ≠ kv.1) → pstr "X-Amz-Signature" ≠ kv.1 →
      encPair kv ∈
        presignedPairsEnc sg method host path qp (eis.getD ei) (tsp.getD now) := by
    intro kv h1 h2 h3
    have h4 := mem_dictUpdate h1 h2
    have h5 : kv ∈ presignedParamsWithSig sg method host path qp (eis.getD ei)
        (tsp.getD now) := by
      rw [hshape]
      exact mem_dictSet_other h4 (fun hc => h3 hc.symm)
    exact List.mem_map_of_mem encPair (hperm.mem_iff.mpr h5)
  have hAlg : (pstr "X-Amz-Algorithm", pstr "AWS4-HMAC-SHA256") ∈
      presignedPairsEnc sg method host path qp (eis.getD ei) (tsp.getD now) := by
    have := hmem (pstr "X-Amz-Algorithm", pstr "AWS4-HMAC-SHA256")
      (by simp [presignedBaseParams]) (hq' (pstr "X-Amz-Algorithm") (by decide))
      (show pstr "X-Amz-Signature" ≠ pstr "X-Amz-Algorithm" by decide)
    simpa [encPair] using this
  have hSH : (pstr "X-Amz-SignedHeaders", pstr "host") ∈
      presignedPairsEnc sg method host path qp (eis.getD ei) (tsp.getD now) := by
    have := hmem (pstr "X-Amz-SignedHeaders", pstr "host")
      (by simp [presignedBaseParams]) (hq' (pstr "X-Amz-SignedHeaders") (by decide))
      (show pstr "X-Amz-Signature" ≠ pstr "X-Amz-SignedHeaders" by decide)
    simpa [encPair] using this
  have hEe : pyQuote (intToChars (eis.getD ei)) = intToChars (eis.getD ei) := by
    rw [intToChars, if_neg (by omega : ¬ eis.getD ei < 0)]
    apply pyQuote_safe
    intro c hc
    obtain ⟨d, hd, rfl⟩ := natToChars_all_digits _ c hc
    exact isAlwaysSafe_digitChar hd
  have hExp : (pstr "X-Amz-Expires", intToChars (eis.getD ei)) ∈
      presignedPairsEnc sg method host path qp (eis.getD ei) (tsp.getD now) := by
    have := hmem (pstr "X-Amz-Expires", intToChars (eis.getD ei))
      (by simp [presignedBaseParams]) (hq' (pstr "X-Amz-Expires") (by decide))
      (show pstr "X-Amz-Signature" ≠ pstr "X-Amz-Expires" by decide)
    simpa [encPair, hEe] using this
  -- the URL itself
  have hne : presignedParamsWithSig sg method host path qp (eis.getD ei) (tsp.getD now)
      ≠ [] := by
    intro h0
    have h1 := hchain (pstr "X-Amz-Algorithm") (by decide) (by decide)
    have h2 : countKey (presignedBaseParams sg (eis.getD ei) (tsp.getD now))
        (pstr "X-Amz-Algorithm") = 1 := rfl
    rw [h0, h2] at h1
    exact absurd h1 (by decide)
  refine ⟨?_, hcounts, hAlg, hSH, hExp⟩
  unfold generate_presigned_url
  rw [if_neg (by omega : ¬ (eis.getD ei < 1 ∨ eis.getD ei > 604800))]
  dsimp only
  rw [build_canonical_querystring_eq hne]
  rfl

/-- Witness for C3 at the spec's scenario input (`AKIAXXX`/`SECRET`,
`GET https://storage-public.example.com/bucket/obj.jpg`, 3600 s). -/
theorem presigned_query_well_formed_witness :
    (1 ≤ (some (3600 : Int)).getD 3600 ∧ (some (3600 : Int)).getD 3600 ≤ 604800 ∧
     ∀ kv ∈ (none : Option Dict).getD [], kv.1 ∉ reservedKeys) ∧
    (generate_presigned_url ⟨pstr "AKIAXXX", pstr "SECRET"⟩ (pstr "GET")
        (pstr "storage-public.example.com") (pstr "/bucket/obj.jpg") none 3600
        (some 3600) true none tsW =
      .ok ((if true then pstr "https" else pstr "http") ++ pstr "://" ++
        pstr "storage-public.example.com" ++ pstr "/bucket/obj.jpg" ++ ['?'] ++
        joinQuery (presignedPairsEnc ⟨pstr "AKIAXXX", pstr "SECRET"⟩ (pstr "GET")
          (pstr "storage-public.example.com") (pstr "/bucket/obj.jpg") none
          ((some (3600 : Int)).getD 3600) ((none : Option PyDateTime).getD tsW))) ∧
     (∀ L ∈ reservedKeys,
       countKey (presignedPairsEnc ⟨pstr "AKIAXXX", pstr "SECRET"⟩ (pstr "GET")
         (pstr "storage-public.example.com") (pstr "/bucket/obj.jpg") none
         ((some (3600 : Int)).getD 3600) ((none : Option PyDateTime).getD tsW)) L = 1) ∧
     (pstr "X-Amz-Algorithm", pstr "AWS4-HMAC-SHA256") ∈
       presignedPairsEnc ⟨pstr "AKIAXXX", pstr "SECRET"⟩ (pstr "GET")
         (pstr "storage-public.example.com") (pstr "/bucket/obj.jpg") none
         ((some (3600 : Int)).getD 3600) ((none : Option PyDateTime).getD tsW) ∧
     (pstr "X-Amz-SignedHeaders", pstr "host") ∈
       presignedPairsEnc ⟨pstr "AKIAXXX", pstr "SECRET"⟩ (pstr "GET")
         (pstr "storage-public.example.com") (pstr "/bucket/obj.jpg") none
         ((some (3600 : Int)).getD 3600) ((none : Option PyDateTime).getD tsW) ∧
     (pstr "X-Amz-Expires", intToChars ((some (3600 : Int)).getD 3600)) ∈
       presignedPairsEnc ⟨pstr "AKIAXXX", pstr "SECRET"⟩ (pstr "GET")
         (pstr "storage-public.example.com") (pstr "/bucket/obj.jpg") none
         ((some (3600 : Int)).getD 3600) ((none : Option PyDateTime).getD tsW)) :=
  ⟨⟨by decide, by decide, by simp⟩,
   presigned_query_well_formed ⟨pstr "AKIAXXX", pstr "SECRET"⟩ (pstr "GET")
     (pstr "storage-public.example.com") (pstr "/bucket/obj.jpg") none 3600 (some 3600)
     true none tsW (by decide) (by decide) (by simp)⟩

/-- **C6** (counterexample): the claim "a host differing from the
configured public host fails with `RejectedHostMismatch`" is false as
stated.  With public host `storage-public.example.com`: (a) the
mismatching host `foo.local` fails with `RejectedInternalHost` instead —
the internal-host check runs first; (b) with a configured public
endpoint whose parsed host is empty (`http://:9000`), a mismatching host
is not rejected at all. -/
theorem host_mismatch_error_precedence :
    (public_base_url cfgPub = some (pstr "http://storage-public.example.com") ∧
     pyLower (hostnameOf (urlparse (pstr "http://foo.local/bucket/obj")).netloc) ≠
       pyLower (hostnameOf
         (urlparse (pstr "http://storage-public.example.com")).netloc) ∧
     validate_and_log_presigned_url cfgPub (pstr "http://foo.local/bucket/obj") 3600
       (pstr "bucket") (pstr "obj") ≠ .error .rejectedHostMismatch ∧
     validate_and_log_presigned_url cfgPub (pstr "http://foo.local/bucket/obj") 3600
       (pstr "bucket") (pstr "obj") = .error .rejectedInternalHost) ∧
    (public_base_url cfgPubNoHost = some (pstr "http://:9000") ∧
     pyLower (hostnameOf
         (urlparse (pstr "http://other.example.com/bucket/obj")).netloc) ≠
       pyLower (hostnameOf (urlparse (pstr "http://:9000")).netloc) ∧
     validate_and_log_presigned_url cfgPubNoHost
       (pstr "http://other.example.com/bucket/obj") 3600 (pstr "bucket") (pstr "obj") =
       .ok (pstr "http://other.example.com/bucket/obj")) := by
  refine ⟨⟨rfl, by decide, ?_, rfl⟩, ⟨rfl, by decide, rfl⟩⟩
  have h : validate_and_log_presigned_url cfgPub (pstr "http://foo.local/bucket/obj") 3600
      (pstr "bucket") (pstr "obj") = .error .rejectedInternalHost := rfl
  rw [h]
  simp

/-- **C6** (amended): whenever a public endpoint whose parsed host is
nonempty is configured, a browser-accessible presigned URL whose
resolved host passes the internal-host check but does not
case-insensitively equal the public endpoint's host fails with
`RejectedHostMismatch`. -/
theorem host_mismatch_rejected (c : ClientCfg) (url : PStr) (e : Int) (b o : PStr)
    (pub : PStr)
    (hs : (urlparse url).scheme ≠ []) (hn : (urlparse url).netloc ≠ [])
    (hhost : is_internal_host (hostnameOf (urlparse url).netloc) = false)
    (hpub : public_base_url c = some pub)
    (hph : hostnameOf (urlparse pub).netloc ≠ [])
    (hmm : pyLower (hostnameOf (urlparse url).netloc) ≠
      pyLower (hostnameOf (urlparse pub).netloc)) :
    validate_and_log_presigned_url c url e b o = .error .rejectedHostMismatch := by
  unfold validate_and_log_presigned_url
  rw [if_neg (not_or.mpr ⟨hs, hn⟩), if_neg (by simp [hhost])]
  simp only [hpub]
  rw [if_pos ⟨hph, hmm⟩]

/-- Witness for C6: public host `storage-public.example.com`, URL host
`other.example.com`. -/
theorem host_mismatch_rejected_witness :
    ((urlparse (pstr "http://other.example.com/bucket/obj")).scheme ≠ [] ∧
     (urlparse (pstr "http://other.example.com/bucket/obj")).netloc ≠ [] ∧
     is_internal_host
       (hostnameOf (urlparse (pstr "http://other.example.com/bucket/obj")).netloc) = false ∧
     public_base_url cfgPub = some (pstr "http://storage-public.example.com") ∧
     hostnameOf (urlparse (pstr "http://storage-public.example.com")).netloc ≠ [] ∧
     pyLower (hostnameOf (urlparse (pstr "http://other.example.com/bucket/obj")).netloc) ≠
       pyLower (hostnameOf (urlparse (pstr "http://storage-public.example.com")).netloc)) ∧
    validate_and_log_presigned_url cfgPub (pstr "http://other.example.com/bucket/obj") 3600
      (pstr "bucket") (pstr "obj") = .error .rejectedHostMismatch :=
  ⟨⟨by decide, by decide, by decide, rfl, by decide, by decide⟩,
   host_mismatch_rejected cfgPub (pstr "http://other.example.com/bucket/obj") 3600
     (pstr "bucket") (pstr "obj") (pstr "http://storage-public.example.com")
     (by decide) (by decide) (by decide) rfl (by decide) (by decide)⟩

end Omnix
